import Mathlib

set_option maxHeartbeats 1000000

/-!
A shallow embedding of the RiPeN terminal RPN calculator (src/main.rs).

Modelling conventions:
* `f64` values are modelled by `ℚ`; the transcendental `f64` library
  functions used by the built-ins (`powf`, trig, `ln`, `sqrt`, `cbrt`,
  the constant `PI`) are uninterpreted parameters bundled in `FloatOps`,
  since exact IEEE-754 behaviour is outside the embedding.
* The Rust `Vec<f64>` value stack is a `List ℚ` whose last element is
  the top of the stack, exactly as in the source (push/pop at the tail).
* `HashMap<String, Operation>` is modelled as `String → Option Operation`
  with insertion overwriting (`mapInsert`).
* The two embedded interpreters (mlua `Lua`, `uiua::Uiua`) are opaque
  callees, per their use in the source: their hidden state is an
  arbitrary type (`US`, `LS`), their call behaviour an arbitrary
  function (`UiuaSem`, `LuaSem`).  A Uiua value is modelled only up to
  what `as_num` observes of it (`UValue`).
* Rust string lowercasing (`str::to_lowercase`) is modelled per-char
  (`strLower`); `f64::from_str` is an opaque parameter `pf`.
* Channel sends of `Event::PushError` performed during an operation are
  returned as a list of messages; the event loop later processes them
  as `Event.PushError` events.
* The `.unwrap()` calls on the `_ripen_registry` Lua table lookups in
  `Calculator::operate` (lines 127-128) are modelled by an `Option`
  result: `none` is a panic.
-/

/-- Opaque models of the `f64` library functions used by the built-in
operations of `Calculator::new` (lines 55-75). -/
structure FloatOps where
  powf : ℚ → ℚ → ℚ
  sin : ℚ → ℚ
  cos : ℚ → ℚ
  tan : ℚ → ℚ
  asin : ℚ → ℚ
  acos : ℚ → ℚ
  atan : ℚ → ℚ
  ln : ℚ → ℚ
  sqrt : ℚ → ℚ
  cbrt : ℚ → ℚ
  pi : ℚ

/-- Model of `str::to_lowercase`: lowercase every character. -/
def strLower (s : String) : String := ⟨s.data.map Char.toLower⟩

/-- A value on the Uiua interpreter's internal stack, modelled up to what
`Value::as_num` observes: either a number, or a non-numeric value carrying
the message that `as_num` reports for it (line 103). -/
inductive UValue where
  | num : ℚ → UValue
  | other : String → UValue
deriving DecidableEq

/-- Model of `uiua::Value::as_num` (line 103). -/
def UValue.as_num : UValue → Except String ℚ
  | .num q => .ok q
  | .other e => .error e

/-- Opaque semantics of the Uiua interpreter, as used at lines 90-98:
`sigArgs` reads a bound function's declared argument count
(`function.signature().args`); `call st fn stack` runs `fn` against
hidden interpreter state `st` and internal value stack `stack`, giving
the run result, the new hidden state, and the internal stack the run
leaves behind. -/
structure UiuaSem (US UFn : Type) where
  sigArgs : UFn → Nat
  call : US → UFn → List UValue → Except String Unit × US × List UValue

/-- The host-visible part of the Uiua interpreter: hidden state plus its
internal value stack (pushed at line 95, drained by `take_stack` at
line 98; top at the tail). -/
structure UiuaState (US : Type) where
  inner : US
  stack : List UValue

/-- The host-visible part of the Lua interpreter: hidden state plus the
`_ripen_registry` global (absent until `load_lua` sets it at line 168);
the table maps declared (original-case) names to callables.  It is an
ordinary global of the script-visible state: script code can rebind its
entries or delete the global (set it to nil or a non-table), hence the
`Option`. -/
structure LuaState (LS LFn : Type) where
  inner : LS
  registry : Option (String → Option LFn)

/-- Opaque semantics of calling an mlua function with float arguments and
converting the returned variadic values to floats (line 132): the result
is either the list of returned floats or an error message, plus the
whole Lua state after the call.  The called function runs arbitrary
script code in the same Lua state, so it may also mutate or delete the
`_ripen_registry` global. -/
structure LuaSem (LS LFn : Type) where
  call : LuaState LS LFn → LFn → List ℚ → Except String (List ℚ) × LuaState LS LFn

/-- `enum Operation` (lines 41-45): a native closure mutating the stack
and reporting success, a Uiua bound function, or a Lua entry holding the
declared name and argument count. -/
inductive Operation (UFn : Type) where
  | Rust : (List ℚ → List ℚ × Bool) → Operation UFn
  | Uiua : UFn → Operation UFn
  | Lua : String → Nat → Operation UFn

/-- `HashMap::insert` on the map model: later insertions overwrite. -/
def mapInsert {UFn : Type} (m : String → Option (Operation UFn))
    (k : String) (v : Operation UFn) : String → Option (Operation UFn) :=
  fun x => if x = k then some v else m x

/-- `Operation::new_rust` (lines 192-206): wrap an `N`-ary function into a
stack mutator that fails (leaving the stack alone) when fewer than `N`
values are present, and otherwise replaces the last `N` values by the
function's output.  `op` receives the chunk of the last `N` values, the
counterpart of the `&[f64; N]` array `split_last_chunk` produces. -/
def Operation.new_rust {UFn : Type} (N : Nat) (op : List ℚ → List ℚ) : Operation UFn :=
  .Rust fun v =>
    if v.length < N then (v, false)
    else (v.take (v.length - N) ++ op (v.drop (v.length - N)), true)

/-- `struct Calculator` (lines 20-28).  `errors` is the `VecDeque` with
its front at the head of the list. -/
structure Calculator (US UFn LS LFn : Type) where
  stack : List ℚ
  text_box : String
  previous : String
  operations : String → Option (Operation UFn)
  uiua : UiuaState US
  lua : LuaState LS LFn
  errors : List String

/-- `Calculator::new` (lines 48-82) with its 21 built-in operations.  In
each closure the wildcard branch is unreachable: `new_rust` always passes
a chunk of length `N`, matching the Rust closures' `&[f64; N]` array
patterns. -/
def Calculator.new {US UFn LS LFn : Type} (fo : FloatOps) (u0 : US) (l0 : LS) :
    Calculator US UFn LS LFn where
  stack := []
  text_box := ""
  previous := ""
  operations :=
    let map : String → Option (Operation UFn) := fun _ => none
    let map := mapInsert map "+" (Operation.new_rust 2 fun l => match l with | [a, b] => [a + b] | _ => [])
    let map := mapInsert map "-" (Operation.new_rust 2 fun l => match l with | [a, b] => [a - b] | _ => [])
    let map := mapInsert map "*" (Operation.new_rust 2 fun l => match l with | [a, b] => [a * b] | _ => [])
    let map := mapInsert map "/" (Operation.new_rust 2 fun l => match l with | [a, b] => [a / b] | _ => [])
    let map := mapInsert map "^" (Operation.new_rust 2 fun l => match l with | [a, b] => [fo.powf a b] | _ => [])
    let map := mapInsert map "neg" (Operation.new_rust 1 fun l => match l with | [a] => [-a] | _ => [])
    let map := mapInsert map "`" (Operation.new_rust 1 fun l => match l with | [a] => [-a] | _ => [])
    let map := mapInsert map "sin" (Operation.new_rust 1 fun l => match l with | [a] => [fo.sin a] | _ => [])
    let map := mapInsert map "cos" (Operation.new_rust 1 fun l => match l with | [a] => [fo.cos a] | _ => [])
    let map := mapInsert map "tan" (Operation.new_rust 1 fun l => match l with | [a] => [fo.tan a] | _ => [])
    let map := mapInsert map "asin" (Operation.new_rust 1 fun l => match l with | [a] => [fo.asin a] | _ => [])
    let map := mapInsert map "acos" (Operation.new_rust 1 fun l => match l with | [a] => [fo.acos a] | _ => [])
    let map := mapInsert map "atan" (Operation.new_rust 1 fun l => match l with | [a] => [fo.atan a] | _ => [])
    let map := mapInsert map "d2r" (Operation.new_rust 1 fun l => match l with | [a] => [a * fo.pi / 180] | _ => [])
    let map := mapInsert map "ln" (Operation.new_rust 1 fun l => match l with | [a] => [fo.ln a] | _ => [])
    let map := mapInsert map "swap" (Operation.new_rust 2 fun l => match l with | [a, b] => [b, a] | _ => [])
    let map := mapInsert map "pred" (Operation.new_rust 1 fun l => match l with | [a] => [a - 1] | _ => [])
    let map := mapInsert map "succ" (Operation.new_rust 1 fun l => match l with | [a] => [a + 1] | _ => [])
    let map := mapInsert map "sqrt" (Operation.new_rust 1 fun l => match l with | [a] => [fo.sqrt a] | _ => [])
    let map := mapInsert map "cbrt" (Operation.new_rust 1 fun l => match l with | [a] => [fo.cbrt a] | _ => [])
    let map := mapInsert map "pi" (Operation.new_rust 0 fun l => match l with | [] => [fo.pi] | _ => [])
    map
  uiua := ⟨u0, []⟩
  lua := ⟨l0, none⟩
  errors := []

/-- The conversion loop of lines 101-111: convert every drained Uiua
value with `as_num`, stopping at the first non-numeric value with its
error message. -/
def asNums : List UValue → Except String (List ℚ)
  | [] => .ok []
  | v :: rest =>
    match v.as_num with
    | .ok n => (asNums rest).map (fun out => n :: out)
    | .error e => .error e

/-- The `Operation::Uiua` arm of `Calculator::operate` (lines 89-125):
check arity, push the top `k` values onto the Uiua stack, call, drain
the Uiua stack, convert; only when everything succeeded pop `k` and push
the results.  The returned list holds the `PushError` messages sent. -/
def uiuaDispatch {US UFn LS LFn : Type} (sem : UiuaSem US UFn)
    (c : Calculator US UFn LS LFn) (fn : UFn) :
    Bool × Calculator US UFn LS LFn × List String :=
  if sem.sigArgs fn ≤ c.stack.length then
    match sem.call c.uiua.inner fn
        (c.uiua.stack ++ (c.stack.drop (c.stack.length - sem.sigArgs fn)).map UValue.num) with
    | (.ok _, inner2, ustack) =>
      match asNums ustack with
      | .ok out =>
          (true, { c with
                     uiua := ⟨inner2, []⟩,
                     stack := c.stack.take (c.stack.length - sem.sigArgs fn) ++ out }, [])
      | .error e => (false, { c with uiua := ⟨inner2, []⟩ }, [e])
    | (.error e, inner2, _) => (false, { c with uiua := ⟨inner2, []⟩ }, [e])
  else (false, c, [])

/-- The `Operation::Lua` arm of `Calculator::operate` (lines 126-148):
the two `unwrap`s on the registry table come first (a `none` result is a
panic), then the arity check, then the call; only on success pop `k` and
push the results. -/
def luaDispatch {US UFn LS LFn : Type} (lsem : LuaSem LS LFn)
    (c : Calculator US UFn LS LFn) (name : String) (arg_count : Nat) :
    Option (Bool × Calculator US UFn LS LFn × List String) :=
  match c.lua.registry with
  | none => none
  | some table =>
    match table name with
    | none => none
    | some fn =>
      if arg_count ≤ c.stack.length then
        match lsem.call c.lua fn (c.stack.drop (c.stack.length - arg_count)) with
        | (.ok out, lua2) =>
            some (true, { c with
                            lua := lua2,
                            stack := c.stack.take (c.stack.length - arg_count) ++ out }, [])
        | (.error e, lua2) =>
            some (false, { c with lua := lua2 }, [e])
      else some (false, c, [])

/-- `Calculator::operate` (lines 84-150): resolve the lower-cased name
and run the matching arm; an unresolved name is a silent failure.
`none` models a panic (only the Lua-table unwraps can produce it). -/
def Calculator.operate {US UFn LS LFn : Type} (sem : UiuaSem US UFn) (lsem : LuaSem LS LFn)
    (c : Calculator US UFn LS LFn) (text : String) :
    Option (Bool × Calculator US UFn LS LFn × List String) :=
  match c.operations (strLower text) with
  | none => some (false, c, [])
  | some (.Rust f) =>
    match f c.stack with
    | (st, ok) => some (ok, { c with stack := st }, [])
  | some (.Uiua fn) => some (uiuaDispatch sem c fn)
  | some (.Lua name arg_count) => luaDispatch lsem c name arg_count

/-- `Calculator::reset` (lines 160-164). -/
def Calculator.reset {US UFn LS LFn : Type} (c : Calculator US UFn LS LFn) :
    Calculator US UFn LS LFn :=
  { c with stack := [], text_box := "", previous := "" }

/-- A Lua configuration chunk, modelled by what the host observes of its
execution (line 176): `decls` is the ordered trace of its
`register(name, arg_count, func)` calls (lines 169-174) — exactly what
the channel receives; `err` tells whether execution finished or stopped
with a load/runtime error (a parse error is the case of an empty
`decls`); and `finalRegistry` is the value the `_ripen_registry` global
holds once execution is over — the chunk runs arbitrary script code, so
besides the insertions its `register` calls perform it may rebind or
delete the global (`none` models an absent or non-table global). -/
structure LuaChunk (LFn : Type) where
  decls : List (String × Nat × LFn)
  err : Option String
  finalRegistry : Option (String → Option LFn)

/-- The contents the chunk's `register` calls alone put into the fresh
`_ripen_registry` table, starting from table `t`: each call stores the
callable under its declared, original-case name (line 170).  A chunk
that does not itself touch the global leaves it equal to
`luaRegTable (fun _ => none) decls`. -/
def luaRegTable {LFn : Type} (t : String → Option LFn)
    (decls : List (String × Nat × LFn)) : String → Option LFn :=
  decls.foldl (fun t' d => fun x => if x = d.1 then some d.2.2 else t' x) t

/-- Draining the `(name, arg_count)` channel into the operations map
(lines 177-179): each pair is inserted under the lower-cased name, with
the original-case name stored in the `Operation::Lua` payload. -/
def insertLuaOps {UFn LFn : Type} (m : String → Option (Operation UFn))
    (decls : List (String × Nat × LFn)) : String → Option (Operation UFn) :=
  decls.foldl (fun m' d => mapInsert m' (strLower d.1) (Operation.Lua d.1 d.2.1)) m

/-- `Calculator::load_lua` (lines 166-181): install a fresh
`_ripen_registry` table, execute the chunk (whose `register` calls fill
the table and the channel, and whose other script code may further
mutate the global — afterwards the global holds `chunk.finalRegistry`),
and only if execution succeeded (`exec()?`, line 176) drain the channel
into the operations map; on failure the `?` returns before the drain, so
the operations map is left untouched. -/
def Calculator.load_lua {US UFn LS LFn : Type} (c : Calculator US UFn LS LFn)
    (chunk : LuaChunk LFn) : Except String Unit × Calculator US UFn LS LFn :=
  let c1 : Calculator US UFn LS LFn :=
    { c with lua := { c.lua with registry := chunk.finalRegistry } }
  match chunk.err with
  | some e => (.error e, c1)
  | none => (.ok (), { c1 with operations := insertLuaOps c.operations chunk.decls })

/-- A Uiua configuration source file, modelled per its interface: running
it transforms the interpreter state and either fails with an error or
finishes, after which `bound_functions()` enumerates the top-level bound
functions it created. -/
structure UiuaProgram (US UFn : Type) where
  run : UiuaState US → Option String × UiuaState US
  bound : List (String × UFn)

/-- `Calculator::load_uiua` (lines 183-189): run the file
(`run_file(..)?`, line 184); only on success insert every bound function
under its lower-cased name. -/
def Calculator.load_uiua {US UFn LS LFn : Type} (c : Calculator US UFn LS LFn)
    (prog : UiuaProgram US UFn) : Except String Unit × Calculator US UFn LS LFn :=
  match prog.run c.uiua with
  | (some e, u2) => (.error e, { c with uiua := u2 })
  | (none, u2) =>
    (.ok (), { c with
                 uiua := u2,
                 operations := prog.bound.foldl
                   (fun m kf => mapInsert m (strLower kf.1) (Operation.Uiua kf.2)) c.operations })

/-- `submit` (lines 209-218).  `pf` models `str::parse::<f64>`.  The
result pairs the new calculator with the `PushError` messages emitted;
`none` is a panic propagated from `operate`. -/
def submit {US UFn LS LFn : Type} (sem : UiuaSem US UFn) (lsem : LuaSem LS LFn)
    (pf : String → Option ℚ) (c : Calculator US UFn LS LFn) :
    Option (Calculator US UFn LS LFn × List String) :=
  match pf c.text_box with
  | some num =>
      some ({ c with stack := c.stack ++ [num], previous := c.text_box, text_box := "" }, [])
  | none =>
    if c.text_box = "" then
      (c.operate sem lsem c.previous).map fun r => (r.2.1, r.2.2)
    else
      (c.operate sem lsem c.text_box).map fun r =>
        if r.1 then ({ r.2.1 with previous := r.2.1.text_box, text_box := "" }, r.2.2)
        else (r.2.1, r.2.2)

/-- The key codes the event loop distinguishes (lines 324-325). -/
inductive KeyCode where
  | backspace
  | char (c : Char)
  | other

/-- `enum Event` (lines 30-39). -/
inductive Event where
  | Input (k : KeyCode)
  | Submit
  | Tick
  | Quit
  | Reset
  | ClearTextBox
  | PushError (s : String)
  | PopError

/-- One step of the consumer loop's event handling (lines 322-340).
`Quit` breaks the loop without touching state; `PushError` appends to the
error queue's tail (the spawned expiry timer later produces a `PopError`
event); `PopError` pops the front, tolerating an empty queue.  The
messages emitted by a `Submit` are sent to the channel and arrive later
as `PushError` events.  `none` is a panic propagated from `operate`. -/
def handleEvent {US UFn LS LFn : Type} (sem : UiuaSem US UFn) (lsem : LuaSem LS LFn)
    (pf : String → Option ℚ) (c : Calculator US UFn LS LFn) :
    Event → Option (Calculator US UFn LS LFn)
  | .Quit => some c
  | .Input .backspace => some { c with text_box := c.text_box.dropRight 1 }
  | .Input (.char ch) => some { c with text_box := c.text_box.push ch }
  | .Input .other => some c
  | .Tick => some c
  | .Submit => (submit sem lsem pf c).map (fun r => r.1)
  | .Reset => some c.reset
  | .ClearTextBox => some { c with text_box := "" }
  | .PushError e => some { c with errors := c.errors ++ [e] }
  | .PopError => some { c with errors := c.errors.tail }

/-- The startup configuration loading of `main` (lines 220-248): load the
Lua chunk and the Uiua program when their paths resolved, sending a
`PushError` with the documented message on any failure (line 247 reuses
the Lua message text for the Uiua path case, as the source does). -/
def mainLoad {US UFn LS LFn : Type} (c : Calculator US UFn LS LFn)
    (lua_config : Option (LuaChunk LFn)) (uiua_config : Option (UiuaProgram US UFn)) :
    Calculator US UFn LS LFn × List String :=
  let r1 : Calculator US UFn LS LFn × List String :=
    match lua_config with
    | some chunk =>
      match c.load_lua chunk with
      | (.ok _, c1) => (c1, [])
      | (.error e, c1) => (c1, ["Unable to load Lua config: " ++ e])
    | none => (c, ["Failed to construct Lua config path"])
  let r2 : Calculator US UFn LS LFn × List String :=
    match uiua_config with
    | some prog =>
      match r1.1.load_uiua prog with
      | (.ok _, c2) => (c2, [])
      | (.error e, c2) => (c2, ["Unable to load Uiua config: " ++ e])
    | none => (r1.1, ["Failed to construct Lua config path"])
  (r2.1, r1.2 ++ r2.2)

/-- The calculator states the program can be in when the consumer loop
handles an event: the startup state after `main`'s config loading, closed
under event handling (timer threads and the producer thread only ever
inject events, so arbitrary events — including `PushError`/`PopError` —
may arrive in any order). -/
inductive Reachable {US UFn LS LFn : Type} (sem : UiuaSem US UFn) (lsem : LuaSem LS LFn)
    (pf : String → Option ℚ) : Calculator US UFn LS LFn → Prop where
  | boot : ∀ (fo : FloatOps) (u0 : US) (l0 : LS) (lua_config : Option (LuaChunk LFn))
      (uiua_config : Option (UiuaProgram US UFn)),
      Reachable sem lsem pf (mainLoad (Calculator.new fo u0 l0) lua_config uiua_config).1
  | step : ∀ c ev c', Reachable sem lsem pf c →
      handleEvent sem lsem pf c ev = some c' → Reachable sem lsem pf c'

/-- All keys of the operations map are lower-case fixed points of
`strLower`. -/
def keysFolded {UFn : Type} (m : String → Option (Operation UFn)) : Prop :=
  ∀ s op, m s = some op → strLower s = s

/-- The safety invariant behind the two `unwrap`s of the `Operation::Lua`
dispatch arm: every `Lua` entry of the operations map has its
original-case name bound to a callable in the `_ripen_registry` table. -/
def luaInv {US UFn LS LFn : Type} (c : Calculator US UFn LS LFn) : Prop :=
  ∀ s name k, c.operations s = some (Operation.Lua name k) →
    ∃ t, c.lua.registry = some t ∧ ∃ fn, t name = some fn

/-- A cooperative chunk: its script code leaves the `_ripen_registry`
global exactly as its `register` calls built it, neither rebinding nor
deleting it.  (A hostile chunk can break this; see the C10
counterexample.) -/
def coopChunk {LFn : Type} (chunk : LuaChunk LFn) : Prop :=
  chunk.finalRegistry = some (luaRegTable (fun _ => none) chunk.decls)

/-- A cooperative Lua call semantics: no dispatched script function
mutates or deletes the `_ripen_registry` global. -/
def coopLuaSem {LS LFn : Type} (lsem : LuaSem LS LFn) : Prop :=
  ∀ ls fn args, ((lsem.call ls fn args).2).registry = ls.registry

/-- Reachability restricted to cooperative user scripts: the boot chunk,
when present, is cooperative (event handling is unrestricted; dispatched
calls are constrained through `coopLuaSem` at the theorems that need
it). -/
inductive ReachableCoop {US UFn LS LFn : Type} (sem : UiuaSem US UFn) (lsem : LuaSem LS LFn)
    (pf : String → Option ℚ) : Calculator US UFn LS LFn → Prop where
  | boot : ∀ (fo : FloatOps) (u0 : US) (l0 : LS) (lua_config : Option (LuaChunk LFn))
      (uiua_config : Option (UiuaProgram US UFn)),
      (∀ chunk, lua_config = some chunk → coopChunk chunk) →
      ReachableCoop sem lsem pf (mainLoad (Calculator.new fo u0 l0) lua_config uiua_config).1
  | step : ∀ c ev c', ReachableCoop sem lsem pf c →
      handleEvent sem lsem pf c ev = some c' → ReachableCoop sem lsem pf c'

/-- Concrete instantiations used to evaluate the model on closed inputs:
all opaque float functions are zero. -/
def fo0 : FloatOps :=
  ⟨fun _ _ => 0, fun _ => 0, fun _ => 0, fun _ => 0, fun _ => 0, fun _ => 0,
   fun _ => 0, fun _ => 0, fun _ => 0, fun _ => 0, 0⟩

/-- A trivial Uiua semantics over unit types: every function is 0-ary and
every call succeeds leaving the stack unchanged. -/
def sem0 : UiuaSem Unit Unit := ⟨fun _ => 0, fun s _ st => (.ok (), s, st)⟩

/-- A trivial Lua semantics over unit types: every call returns no
values and leaves the Lua state untouched. -/
def lsem0 : LuaSem Unit Unit := ⟨fun ls _ _ => (.ok [], ls)⟩

/-- A concrete parse function: exactly the strings "2", "3" and "8" parse
(to 2, 3 and 8). -/
def pf0 : String → Option ℚ :=
  fun s => if s = "2" then some 2 else if s = "3" then some 3 else if s = "8" then some 8 else none

/-- A freshly constructed calculator over unit interpreter types. -/
def testC : Calculator Unit Unit Unit Unit := Calculator.new fo0 () ()

variable {US UFn LS LFn : Type}

/-- Dispatch equation: unresolved names are silent no-ops (line 87). -/
theorem operate_eq_none (sem : UiuaSem US UFn) (lsem : LuaSem LS LFn)
    (c : Calculator US UFn LS LFn) (text : String)
    (h : c.operations (strLower text) = none) :
    c.operate sem lsem text = some (false, c, []) := by
  unfold Calculator.operate
  rw [h]

/-- Dispatch equation for the `Rust` arm (line 88). -/
theorem operate_eq_rust (sem : UiuaSem US UFn) (lsem : LuaSem LS LFn)
    (c : Calculator US UFn LS LFn) (text : String) (f : List ℚ → List ℚ × Bool)
    (h : c.operations (strLower text) = some (Operation.Rust f)) :
    c.operate sem lsem text = some ((f c.stack).2, { c with stack := (f c.stack).1 }, []) := by
  unfold Calculator.operate
  rw [h]

/-- Dispatch equation for the `Uiua` arm. -/
theorem operate_eq_uiua (sem : UiuaSem US UFn) (lsem : LuaSem LS LFn)
    (c : Calculator US UFn LS LFn) (text : String) (fn : UFn)
    (h : c.operations (strLower text) = some (Operation.Uiua fn)) :
    c.operate sem lsem text = some (uiuaDispatch sem c fn) := by
  unfold Calculator.operate
  rw [h]

/-- Dispatch equation for the `Lua` arm. -/
theorem operate_eq_lua (sem : UiuaSem US UFn) (lsem : LuaSem LS LFn)
    (c : Calculator US UFn LS LFn) (text : String) (name : String) (k : Nat)
    (h : c.operations (strLower text) = some (Operation.Lua name k)) :
    c.operate sem lsem text = luaDispatch lsem c name k := by
  unfold Calculator.operate
  rw [h]

/-- Behaviour of a `new_rust` operation's closure on an arbitrary stack. -/
theorem operate_new_rust (sem : UiuaSem US UFn) (lsem : LuaSem LS LFn)
    (c : Calculator US UFn LS LFn) (text : String) (N : Nat) (g : List ℚ → List ℚ)
    (h : c.operations (strLower text) = some (Operation.new_rust N g)) :
    c.operate sem lsem text =
      if c.stack.length < N then some (false, c, [])
      else some (true, { c with
                           stack := c.stack.take (c.stack.length - N) ++
                             g (c.stack.drop (c.stack.length - N)) }, []) := by
  rw [operate_eq_rust sem lsem c text _ h]
  by_cases hlen : c.stack.length < N <;> simp [Operation.new_rust, hlen]

/-- A Uiua dispatch only ever touches the value stack and the Uiua
interpreter state. -/
theorem uiuaDispatch_frame (sem : UiuaSem US UFn) (c : Calculator US UFn LS LFn) (fn : UFn)
    (r : Bool × Calculator US UFn LS LFn × List String) (h : uiuaDispatch sem c fn = r) :
    r.2.1.text_box = c.text_box ∧ r.2.1.previous = c.previous ∧
    r.2.1.operations = c.operations ∧ r.2.1.lua = c.lua ∧ r.2.1.errors = c.errors := by
  unfold uiuaDispatch at h
  split at h
  · split at h
    · split at h
      · subst h; exact ⟨rfl, rfl, rfl, rfl, rfl⟩
      · subst h; exact ⟨rfl, rfl, rfl, rfl, rfl⟩
    · subst h; exact ⟨rfl, rfl, rfl, rfl, rfl⟩
  · subst h; exact ⟨rfl, rfl, rfl, rfl, rfl⟩

/-- A Lua dispatch only ever touches the value stack and the Lua
interpreter state (the dispatched script function may mutate any of that
state, the registry global included). -/
theorem luaDispatch_frame (lsem : LuaSem LS LFn) (c : Calculator US UFn LS LFn)
    (name : String) (k : Nat) (r : Bool × Calculator US UFn LS LFn × List String)
    (h : luaDispatch lsem c name k = some r) :
    r.2.1.text_box = c.text_box ∧ r.2.1.previous = c.previous ∧
    r.2.1.operations = c.operations ∧ r.2.1.uiua = c.uiua ∧
    r.2.1.errors = c.errors := by
  unfold luaDispatch at h
  split at h
  · exact absurd h (by simp)
  · split at h
    · exact absurd h (by simp)
    · split at h
      · split at h
        · cases h; exact ⟨rfl, rfl, rfl, rfl, rfl⟩
        · cases h; exact ⟨rfl, rfl, rfl, rfl, rfl⟩
      · cases h; exact ⟨rfl, rfl, rfl, rfl, rfl⟩

/-- Under a cooperative call semantics a Lua dispatch preserves the
`_ripen_registry` global. -/
theorem luaDispatch_registry (lsem : LuaSem LS LFn) (c : Calculator US UFn LS LFn)
    (name : String) (k : Nat) (r : Bool × Calculator US UFn LS LFn × List String)
    (hcoop : coopLuaSem lsem) (h : luaDispatch lsem c name k = some r) :
    r.2.1.lua.registry = c.lua.registry := by
  unfold luaDispatch at h
  split at h
  · exact absurd h (by simp)
  · split at h
    · exact absurd h (by simp)
    · rename_i fn hfn
      split at h
      · split at h
        · rename_i heq
          cases h
          have h3 := hcoop c.lua fn (c.stack.drop (c.stack.length - k))
          rw [heq] at h3
          exact h3
        · rename_i heq
          cases h
          have h3 := hcoop c.lua fn (c.stack.drop (c.stack.length - k))
          rw [heq] at h3
          exact h3
      · cases h; rfl

/-- `Calculator::operate` only ever touches the value stack and the two
interpreter states: the text box, the previous buffer, the operations
map and the error queue all survive any dispatch. -/
theorem operate_frame (sem : UiuaSem US UFn) (lsem : LuaSem LS LFn)
    (c : Calculator US UFn LS LFn) (text : String)
    (r : Bool × Calculator US UFn LS LFn × List String)
    (h : c.operate sem lsem text = some r) :
    r.2.1.text_box = c.text_box ∧ r.2.1.previous = c.previous ∧
    r.2.1.operations = c.operations ∧ r.2.1.errors = c.errors := by
  unfold Calculator.operate at h
  split at h
  · cases h; exact ⟨rfl, rfl, rfl, rfl⟩
  · split at h
    · cases h; exact ⟨rfl, rfl, rfl, rfl⟩
  · rename_i fn heq
    cases h
    have := uiuaDispatch_frame sem c fn _ rfl
    exact ⟨this.1, this.2.1, this.2.2.1, this.2.2.2.2⟩
  · rename_i name k heq
    have := luaDispatch_frame lsem c name k r h
    exact ⟨this.1, this.2.1, this.2.2.1, this.2.2.2.2⟩

/-- Under a cooperative call semantics a dispatch preserves the
`_ripen_registry` global (the Rust and Uiua arms never touch the Lua
state at all). -/
theorem operate_registry (sem : UiuaSem US UFn) (lsem : LuaSem LS LFn)
    (c : Calculator US UFn LS LFn) (text : String)
    (r : Bool × Calculator US UFn LS LFn × List String)
    (hcoop : coopLuaSem lsem) (h : c.operate sem lsem text = some r) :
    r.2.1.lua.registry = c.lua.registry := by
  unfold Calculator.operate at h
  split at h
  · cases h; rfl
  · split at h
    · cases h; rfl
  · rename_i fn heq
    cases h
    have := uiuaDispatch_frame sem c fn _ rfl
    rw [this.2.2.2.1]
  · rename_i name k heq
    exact luaDispatch_registry lsem c name k r hcoop h

/-- An insertion into the operations map preserves any pointwise
property of its entries, provided the inserted entry satisfies it and is
keyed by a lower-case fixed point of `strLower`. -/
theorem mapInsert_shape (P : Operation UFn → Prop) {m : String → Option (Operation UFn)}
    {k : String} {v : Operation UFn} (hv : P v) (hk : strLower k = k)
    (hm : ∀ s op, m s = some op → P op ∧ strLower s = s) :
    ∀ s op, mapInsert m k v s = some op → P op ∧ strLower s = s := by
  intro s op h
  unfold mapInsert at h
  split at h
  · rename_i he
    cases Option.some.inj h
    subst he
    exact ⟨hv, hk⟩
  · exact hm s op h

/-- Every entry of the freshly built operations map is a `new_rust`
built-in, registered under a key that is already lower-case. -/
theorem new_shape (fo : FloatOps) (u0 : US) (l0 : LS) :
    ∀ s (op : Operation UFn),
      (Calculator.new fo u0 l0 : Calculator US UFn LS LFn).operations s = some op →
      (∃ N g, op = (Operation.new_rust N g : Operation UFn)) ∧ strLower s = s := by
  simp only [Calculator.new]
  repeat
    first
      | exact fun s op h => Option.noConfusion h
      | refine mapInsert_shape _ ⟨_, _, rfl⟩ (by decide) ?_

/-- The fresh calculator holds no Lua operations. -/
theorem new_noLua (fo : FloatOps) (u0 : US) (l0 : LS) (s name : String) (k : Nat) :
    (Calculator.new fo u0 l0 : Calculator US UFn LS LFn).operations s ≠
      some (Operation.Lua name k) := by
  intro h
  obtain ⟨⟨N, g, hop⟩, -⟩ := new_shape fo u0 l0 s _ h
  simp only [Operation.new_rust] at hop
  exact Operation.noConfusion hop

/-- Equation for a failing Lua load: the `?` at line 176 returns before
the channel is drained, so the operations map is untouched (only the
`_ripen_registry` global keeps whatever the partial execution left). -/
theorem load_lua_eq_err (c : Calculator US UFn LS LFn) (chunk : LuaChunk LFn) (e : String)
    (h : chunk.err = some e) :
    c.load_lua chunk =
      (.error e, { c with
                     lua := { c.lua with registry := chunk.finalRegistry } }) := by
  unfold Calculator.load_lua
  rw [h]

/-- Equation for a successful Lua load: every declaration observed over
the channel is inserted under its lower-cased name. -/
theorem load_lua_eq_ok (c : Calculator US UFn LS LFn) (chunk : LuaChunk LFn)
    (h : chunk.err = none) :
    c.load_lua chunk =
      (.ok (), { c with
                   lua := { c.lua with registry := chunk.finalRegistry },
                   operations := insertLuaOps c.operations chunk.decls }) := by
  unfold Calculator.load_lua
  rw [h]

/-- Equation for a failing Uiua load: the `?` at line 184 returns before
`bound_functions` is enumerated, so the operations map is untouched. -/
theorem load_uiua_eq_err (c : Calculator US UFn LS LFn) (prog : UiuaProgram US UFn)
    (e : String) (u2 : UiuaState US) (h : prog.run c.uiua = (some e, u2)) :
    c.load_uiua prog = (.error e, { c with uiua := u2 }) := by
  unfold Calculator.load_uiua
  rw [h]

/-- Equation for a successful Uiua load. -/
theorem load_uiua_eq_ok (c : Calculator US UFn LS LFn) (prog : UiuaProgram US UFn)
    (u2 : UiuaState US) (h : prog.run c.uiua = (none, u2)) :
    c.load_uiua prog =
      (.ok (), { c with
                   uiua := u2,
                   operations := prog.bound.foldl
                     (fun m kf => mapInsert m (strLower kf.1) (Operation.Uiua kf.2))
                     c.operations }) := by
  unfold Calculator.load_uiua
  rw [h]

/-- Walking the channel drain and the registry fill over the same
declaration list keeps them consistent: every `Lua` entry that the drain
produces has its original-case name bound in the filled table. -/
theorem insertLuaOps_lookup (decls : List (String × Nat × LFn))
    (m : String → Option (Operation UFn)) (t : String → Option LFn)
    (base : ∀ s name k, m s = some (Operation.Lua name k) → ∃ fn, t name = some fn)
    (s name : String) (k : Nat) (h : insertLuaOps m decls s = some (Operation.Lua name k)) :
    ∃ fn, luaRegTable t decls name = some fn := by
  induction decls generalizing m t with
  | nil => exact base s name k h
  | cons d rest ih =>
    refine ih (mapInsert m (strLower d.1) (Operation.Lua d.1 d.2.1))
      (fun x => if x = d.1 then some d.2.2 else t x) ?_ h
    intro s' n' k' h'
    unfold mapInsert at h'
    split at h'
    · obtain ⟨h1, -⟩ := Operation.Lua.inj (Option.some.inj h')
      exact ⟨d.2.2, by simp [← h1]⟩
    · obtain ⟨fn, hfn⟩ := base s' n' k' h'
      by_cases hd : n' = d.1
      · exact ⟨d.2.2, by simp [hd]⟩
      · exact ⟨fn, by simp [hd, hfn]⟩

/-- Inserting Uiua operations never creates a `Lua` entry: any `Lua`
entry visible after the fold was already in the base map. -/
theorem uiuaFold_lua (bound : List (String × UFn)) (m : String → Option (Operation UFn))
    (s name : String) (k : Nat)
    (h : (bound.foldl (fun m' kf => mapInsert m' (strLower kf.1) (Operation.Uiua kf.2)) m) s =
      some (Operation.Lua name k)) :
    m s = some (Operation.Lua name k) := by
  induction bound generalizing m with
  | nil => exact h
  | cons d rest ih =>
    have h2 := ih _ h
    simp only [mapInsert] at h2
    split at h2
    · exact absurd (Option.some.inj h2) (fun hc => Operation.noConfusion hc)
    · exact h2

/-- Loading a cooperative Lua chunk establishes the registry invariant
on a calculator with no prior Lua operations (on failure because the
operations map is untouched, on success because the registry table and
the operations map are filled from the same declaration list). -/
theorem load_lua_luaInv (c : Calculator US UFn LS LFn) (chunk : LuaChunk LFn)
    (hcoop : coopChunk chunk)
    (hno : ∀ s name k, c.operations s ≠ some (Operation.Lua name k)) :
    luaInv (c.load_lua chunk).2 := by
  intro s name k h
  cases hck : chunk.err with
  | some e =>
    rw [load_lua_eq_err c chunk e hck] at h ⊢
    exact absurd h (hno s name k)
  | none =>
    rw [load_lua_eq_ok c chunk hck] at h ⊢
    exact ⟨luaRegTable (fun _ => none) chunk.decls, hcoop,
      insertLuaOps_lookup chunk.decls c.operations (fun _ => none)
        (fun s' n' k' h' => absurd h' (hno s' n' k')) s name k h⟩

/-- A Uiua load preserves the registry invariant: it never adds `Lua`
entries and never touches the registry table. -/
theorem load_uiua_luaInv (c : Calculator US UFn LS LFn) (prog : UiuaProgram US UFn)
    (hinv : luaInv c) : luaInv (c.load_uiua prog).2 := by
  intro s name k h
  rcases hr : prog.run c.uiua with ⟨oe, u2⟩
  cases oe with
  | some e =>
    rw [load_uiua_eq_err c prog e u2 hr] at h ⊢
    exact hinv s name k h
  | none =>
    rw [load_uiua_eq_ok c prog u2 hr] at h ⊢
    exact hinv s name k (uiuaFold_lua prog.bound c.operations s name k h)

/-- The startup state of `main` satisfies the registry invariant
whenever the loaded Lua chunk (if any) is cooperative. -/
theorem mainLoad_luaInv (fo : FloatOps) (u0 : US) (l0 : LS)
    (lua_config : Option (LuaChunk LFn)) (uiua_config : Option (UiuaProgram US UFn))
    (hcoop : ∀ chunk, lua_config = some chunk → coopChunk chunk) :
    luaInv (mainLoad (Calculator.new fo u0 l0 : Calculator US UFn LS LFn)
      lua_config uiua_config).1 := by
  have hstep1 : ∃ c1 : Calculator US UFn LS LFn, luaInv c1 ∧
      ∀ msgs, (mainLoad (Calculator.new fo u0 l0) lua_config uiua_config).1 =
        (match uiua_config with
          | some prog =>
            match c1.load_uiua prog with
            | (.ok _, c2) => (c2, ([] : List String))
            | (.error e, c2) => (c2, ["Unable to load Uiua config: " ++ e])
          | none => (c1, msgs)).1 := by
    cases lua_config with
    | none =>
      refine ⟨Calculator.new fo u0 l0, fun s name k h => absurd h (new_noLua fo u0 l0 s name k), ?_⟩
      intro msgs
      cases uiua_config <;> rfl
    | some chunk =>
      refine ⟨(Calculator.new fo u0 l0).load_lua chunk |>.2,
        load_lua_luaInv _ chunk (hcoop chunk rfl) (new_noLua fo u0 l0), ?_⟩
      intro msgs
      cases uiua_config with
      | none =>
        show (mainLoad (Calculator.new fo u0 l0) (some chunk) none).1 = _
        unfold mainLoad
        rcases hl : (Calculator.new fo u0 l0 : Calculator US UFn LS LFn).load_lua chunk
          with ⟨le, c1⟩
        cases le <;> simp [hl]
      | some prog =>
        show (mainLoad (Calculator.new fo u0 l0) (some chunk) (some prog)).1 = _
        unfold mainLoad
        rcases hl : (Calculator.new fo u0 l0 : Calculator US UFn LS LFn).load_lua chunk
          with ⟨le, c1⟩
        cases le <;> simp [hl]
  obtain ⟨c1, hc1, heq⟩ := hstep1
  rw [heq []]
  cases uiua_config with
  | none => exact hc1
  | some prog =>
    have := load_uiua_luaInv c1 prog hc1
    rcases hu : c1.load_uiua prog with ⟨ue, c2⟩
    rw [hu] at this
    cases ue <;> simpa [hu] using this

/-- `submit` only ever touches the value stack, the text buffers and the
interpreter states: the operations map and the error queue survive. -/
theorem submit_frame (sem : UiuaSem US UFn) (lsem : LuaSem LS LFn)
    (pf : String → Option ℚ) (c : Calculator US UFn LS LFn)
    (r : Calculator US UFn LS LFn × List String) (h : submit sem lsem pf c = some r) :
    r.1.operations = c.operations ∧ r.1.errors = c.errors := by
  unfold submit at h
  split at h
  · cases Option.some.inj h; exact ⟨rfl, rfl⟩
  · split at h
    · rcases ho : c.operate sem lsem c.previous with _ | r0
      · rw [ho] at h; cases h
      · rw [ho] at h
        simp only [Option.map] at h
        cases Option.some.inj h
        have := operate_frame sem lsem c c.previous r0 ho
        exact ⟨this.2.2.1, this.2.2.2⟩
    · rcases ho : c.operate sem lsem c.text_box with _ | r0
      · rw [ho] at h; cases h
      · rw [ho] at h
        simp only [Option.map] at h
        cases Option.some.inj h
        have := operate_frame sem lsem c c.text_box r0 ho
        split
        · exact ⟨this.2.2.1, this.2.2.2⟩
        · exact ⟨this.2.2.1, this.2.2.2⟩

/-- Under a cooperative call semantics `submit` preserves the
`_ripen_registry` global. -/
theorem submit_registry (sem : UiuaSem US UFn) (lsem : LuaSem LS LFn)
    (pf : String → Option ℚ) (c : Calculator US UFn LS LFn)
    (r : Calculator US UFn LS LFn × List String) (hcoop : coopLuaSem lsem)
    (h : submit sem lsem pf c = some r) : r.1.lua.registry = c.lua.registry := by
  unfold submit at h
  split at h
  · cases Option.some.inj h; rfl
  · split at h
    · rcases ho : c.operate sem lsem c.previous with _ | r0
      · rw [ho] at h; cases h
      · rw [ho] at h
        simp only [Option.map] at h
        cases Option.some.inj h
        exact operate_registry sem lsem c c.previous r0 hcoop ho
    · rcases ho : c.operate sem lsem c.text_box with _ | r0
      · rw [ho] at h; cases h
      · rw [ho] at h
        simp only [Option.map] at h
        cases Option.some.inj h
        have := operate_registry sem lsem c c.text_box r0 hcoop ho
        split
        · exact this
        · exact this

/-- Event handling never changes the operations map: no event removes or
adds a registered operation. -/
theorem handleEvent_frame (sem : UiuaSem US UFn) (lsem : LuaSem LS LFn)
    (pf : String → Option ℚ) (c : Calculator US UFn LS LFn) (ev : Event)
    (c' : Calculator US UFn LS LFn) (h : handleEvent sem lsem pf c ev = some c') :
    c'.operations = c.operations := by
  cases ev with
  | Input kc => cases kc <;> (cases Option.some.inj h; rfl)
  | Submit =>
    rcases hs : submit sem lsem pf c with _ | r
    · rw [handleEvent, hs] at h; cases h
    · rw [handleEvent, hs] at h
      simp only [Option.map] at h
      cases Option.some.inj h
      exact (submit_frame sem lsem pf c r hs).1
  | Tick => cases Option.some.inj h; rfl
  | Quit => cases Option.some.inj h; rfl
  | Reset => cases Option.some.inj h; rfl
  | ClearTextBox => cases Option.some.inj h; rfl
  | PushError e => cases Option.some.inj h; rfl
  | PopError => cases Option.some.inj h; rfl

/-- Under a cooperative call semantics, event handling preserves the
`_ripen_registry` global. -/
theorem handleEvent_registry (sem : UiuaSem US UFn) (lsem : LuaSem LS LFn)
    (pf : String → Option ℚ) (c : Calculator US UFn LS LFn) (ev : Event)
    (c' : Calculator US UFn LS LFn) (hcoop : coopLuaSem lsem)
    (h : handleEvent sem lsem pf c ev = some c') :
    c'.lua.registry = c.lua.registry := by
  cases ev with
  | Input kc => cases kc <;> (cases Option.some.inj h; rfl)
  | Submit =>
    rcases hs : submit sem lsem pf c with _ | r
    · rw [handleEvent, hs] at h; cases h
    · rw [handleEvent, hs] at h
      simp only [Option.map] at h
      cases Option.some.inj h
      exact submit_registry sem lsem pf c r hcoop hs
  | Tick => cases Option.some.inj h; rfl
  | Quit => cases Option.some.inj h; rfl
  | Reset => cases Option.some.inj h; rfl
  | ClearTextBox => cases Option.some.inj h; rfl
  | PushError e => cases Option.some.inj h; rfl
  | PopError => cases Option.some.inj h; rfl

/-- With cooperative scripts — a cooperative boot chunk and no dispatched
call mutating the registry global — the registry invariant holds in
every reachable state. -/
theorem coopReachable_luaInv (sem : UiuaSem US UFn) (lsem : LuaSem LS LFn)
    (pf : String → Option ℚ) (c : Calculator US UFn LS LFn)
    (hcoop : coopLuaSem lsem) (h : ReachableCoop sem lsem pf c) : luaInv c := by
  induction h with
  | boot fo u0 l0 lc uc hchunks => exact mainLoad_luaInv fo u0 l0 lc uc hchunks
  | step c0 ev c' hr heq ih =>
    have hops := handleEvent_frame sem lsem pf c0 ev c' heq
    have hreg := handleEvent_registry sem lsem pf c0 ev c' hcoop heq
    intro s name k hl
    rw [hops] at hl
    obtain ⟨t, ht, fn, hfn⟩ := ih s name k hl
    exact ⟨t, hreg ▸ ht, fn, hfn⟩

/-- Under the registry invariant a dispatch cannot panic: the two
`unwrap`s of the `Lua` arm always succeed. -/
theorem luaInv_noPanic (sem : UiuaSem US UFn) (lsem : LuaSem LS LFn)
    (c : Calculator US UFn LS LFn) (hinv : luaInv c) (text : String) :
    c.operate sem lsem text ≠ none := by
  intro h
  rcases hm : c.operations (strLower text) with _ | op
  · rw [operate_eq_none sem lsem c text hm] at h; cases h
  · cases op with
    | Rust f => rw [operate_eq_rust sem lsem c text f hm] at h; cases h
    | Uiua fn => rw [operate_eq_uiua sem lsem c text fn hm] at h; cases h
    | Lua name k =>
      rw [operate_eq_lua sem lsem c text name k hm] at h
      obtain ⟨t, ht, fn, hfn⟩ := hinv _ name k hm
      unfold luaDispatch at h
      split at h
      · rename_i heq
        rw [heq] at ht; cases ht
      · rename_i table heq
        rw [heq] at ht
        cases Option.some.inj ht
        split at h
        · rename_i heq2
          rw [heq2] at hfn; cases hfn
        · split at h
          · split at h <;> cases h
          · cases h

/-- C2 counterexample: a Lua chunk that registers "foo" and then fails
with a runtime error leaves "foo" unregistered — the claim that
operations declared before the failure remain registered and invocable
is false.  The lookup returns nothing and dispatching "foo" is a
resolution failure, so "foo" is not invocable. -/
theorem C2_counterexample :
    (testC.load_lua ⟨[("foo", 1, ())], some "boom",
      some (luaRegTable (fun _ => none) [("foo", 1, ())])⟩).1 = Except.error "boom" ∧
    (testC.load_lua ⟨[("foo", 1, ())], some "boom",
      some (luaRegTable (fun _ => none) [("foo", 1, ())])⟩).2.operations "foo" = none ∧
    (testC.load_lua ⟨[("foo", 1, ())], some "boom",
      some (luaRegTable (fun _ => none) [("foo", 1, ())])⟩).2.operate sem0 lsem0 "foo" =
      some (false, (testC.load_lua ⟨[("foo", 1, ())], some "boom",
        some (luaRegTable (fun _ => none) [("foo", 1, ())])⟩).2, []) :=
  ⟨rfl, rfl, operate_eq_none sem0 lsem0 _ "foo" rfl⟩

/-- C2 (amended): when loading a script source fails partway through
(parse or execution error), none of the operations declared before the
point of failure are registered — the failing `exec()?` / `run_file(..)?`
returns before the registration drain, so the Operation Registry is left
exactly as it was; the failure is reported with the documented Error
Queue message.  The same semantics hold for the array-language script. -/
theorem C2_amended_load_failure (c : Calculator US UFn LS LFn) (chunk : LuaChunk LFn)
    (prog : UiuaProgram US UFn) (e1 e2 : String) (u2 : UiuaState US)
    (h1 : chunk.err = some e1) (h2 : prog.run c.uiua = (some e2, u2)) :
    (mainLoad c (some chunk) (some prog)).1.operations = c.operations ∧
    (mainLoad c (some chunk) (some prog)).2 =
      ["Unable to load Lua config: " ++ e1, "Unable to load Uiua config: " ++ e2] := by
  have hl := load_lua_eq_err c chunk e1 h1
  have hu := load_uiua_eq_err
    { c with lua := { c.lua with registry := chunk.finalRegistry } }
    prog e2 u2 h2
  constructor <;> simp [mainLoad, hl, hu]

/-- Witness for C2's amended claim: a failing Lua chunk and a failing
Uiua program on the fresh calculator register nothing and report the two
documented messages. -/
theorem C2_amended_load_failure_witness :
    (mainLoad testC (some ⟨[("foo", 1, ())], some "boom",
        some (luaRegTable (fun _ => none) [("foo", 1, ())])⟩)
      (some ⟨fun u => (some "bang", u), []⟩)).1.operations = testC.operations ∧
    (mainLoad testC (some ⟨[("foo", 1, ())], some "boom",
        some (luaRegTable (fun _ => none) [("foo", 1, ())])⟩)
      (some ⟨fun u => (some "bang", u), []⟩)).2 =
      ["Unable to load Lua config: " ++ "boom", "Unable to load Uiua config: " ++ "bang"] :=
  C2_amended_load_failure testC
    ⟨[("foo", 1, ())], some "boom", some (luaRegTable (fun _ => none) [("foo", 1, ())])⟩
    ⟨fun u => (some "bang", u), []⟩ "boom" "bang" testC.uiua rfl rfl

/-- C3: an unresolved name, and a resolved `k`-ary operation applied to a
stack with fewer than `k` elements (for each of the three variants),
return failure leaving the calculator — value stack, input line, error
queue — exactly unchanged and emit no error message. -/
theorem C3_silent_noop (sem : UiuaSem US UFn) (lsem : LuaSem LS LFn)
    (c : Calculator US UFn LS LFn) (text : String) :
    (c.operations (strLower text) = none → c.operate sem lsem text = some (false, c, [])) ∧
    (∀ N g, c.operations (strLower text) = some (Operation.new_rust N g) →
      c.stack.length < N → c.operate sem lsem text = some (false, c, [])) ∧
    (∀ fn, c.operations (strLower text) = some (Operation.Uiua fn) →
      c.stack.length < sem.sigArgs fn → c.operate sem lsem text = some (false, c, [])) ∧
    (∀ name k t fn, c.operations (strLower text) = some (Operation.Lua name k) →
      c.lua.registry = some t → t name = some fn →
      c.stack.length < k → c.operate sem lsem text = some (false, c, [])) := by
  refine ⟨fun h => operate_eq_none sem lsem c text h, ?_, ?_, ?_⟩
  · intro N g h hlt
    rw [operate_new_rust sem lsem c text N g h, if_pos hlt]
  · intro fn h hlt
    rw [operate_eq_uiua sem lsem c text fn h]
    unfold uiuaDispatch
    rw [if_neg (not_le.mpr hlt)]
  · intro name k t fn h ht hfn hlt
    rw [operate_eq_lua sem lsem c text name k h]
    unfold luaDispatch
    simp only [ht, hfn]
    rw [if_neg (not_le.mpr hlt)]

/-- Witness for C3: on the fresh calculator (empty stack), the unknown
name "nosuch" and the binary built-in "+" are both silent no-ops. -/
theorem C3_silent_noop_witness :
    testC.operate sem0 lsem0 "nosuch" = some (false, testC, []) ∧
    testC.operate sem0 lsem0 "+" = some (false, testC, []) :=
  ⟨(C3_silent_noop sem0 lsem0 testC "nosuch").1 rfl,
   (C3_silent_noop sem0 lsem0 testC "+").2.1 2
     (fun l => match l with | [a, b] => [a + b] | _ => []) rfl (by decide)⟩

/-- Evaluating a binary `new_rust` operation on a stack ending in
`[a, b]` replaces exactly those two values by the closure's output. -/
theorem operate_binop (sem : UiuaSem US UFn) (lsem : LuaSem LS LFn)
    (c : Calculator US UFn LS LFn) (text : String) (g : List ℚ → List ℚ)
    (h : c.operations (strLower text) = some (Operation.new_rust 2 g))
    (s : List ℚ) (a b : ℚ) (hst : c.stack = s ++ [a, b]) :
    c.operate sem lsem text = some (true, { c with stack := s ++ g [a, b] }, []) := by
  rw [operate_new_rust sem lsem c text 2 g h, hst]
  have hlen : (s ++ [a, b]).length = s.length + 2 := by simp
  have hsub : (s ++ [a, b]).length - 2 = s.length := by rw [hlen]; omega
  rw [if_neg (by rw [hlen]; omega), hsub, List.take_left, List.drop_left]

/-- C4: each built-in binary operator consumes the top two values
`[.., a, b]` (`b` topmost) in original stack order and replaces them by
its single documented result: `a+b`, `a-b`, `a*b`, `a/b` and `powf a b`;
values below the top two are untouched. -/
theorem C4_builtin_binary_ops (fo : FloatOps) (u0 : US) (l0 : LS)
    (sem : UiuaSem US UFn) (lsem : LuaSem LS LFn) (s : List ℚ) (a b : ℚ) :
    ({ Calculator.new fo u0 l0 with stack := s ++ [a, b] } : Calculator US UFn LS LFn).operate
        sem lsem "+" =
      some (true, { Calculator.new fo u0 l0 with stack := s ++ [a + b] }, []) ∧
    ({ Calculator.new fo u0 l0 with stack := s ++ [a, b] } : Calculator US UFn LS LFn).operate
        sem lsem "-" =
      some (true, { Calculator.new fo u0 l0 with stack := s ++ [a - b] }, []) ∧
    ({ Calculator.new fo u0 l0 with stack := s ++ [a, b] } : Calculator US UFn LS LFn).operate
        sem lsem "*" =
      some (true, { Calculator.new fo u0 l0 with stack := s ++ [a * b] }, []) ∧
    ({ Calculator.new fo u0 l0 with stack := s ++ [a, b] } : Calculator US UFn LS LFn).operate
        sem lsem "/" =
      some (true, { Calculator.new fo u0 l0 with stack := s ++ [a / b] }, []) ∧
    ({ Calculator.new fo u0 l0 with stack := s ++ [a, b] } : Calculator US UFn LS LFn).operate
        sem lsem "^" =
      some (true, { Calculator.new fo u0 l0 with stack := s ++ [fo.powf a b] }, []) :=
  ⟨operate_binop sem lsem _ "+" _ rfl s a b rfl,
   operate_binop sem lsem _ "-" _ rfl s a b rfl,
   operate_binop sem lsem _ "*" _ rfl s a b rfl,
   operate_binop sem lsem _ "/" _ rfl s a b rfl,
   operate_binop sem lsem _ "^" _ rfl s a b rfl⟩

/-- C5: submitting a non-empty input line either pushes its parsed
numeric value (recording the line as Previous and clearing it), or
dispatches it as an operator name: on success Previous is set to the line
and the line cleared, on failure both the line and Previous survive
unchanged — Previous is never set by a failed submission. -/
theorem C5_submit_nonempty (sem : UiuaSem US UFn) (lsem : LuaSem LS LFn)
    (pf : String → Option ℚ) (c : Calculator US UFn LS LFn) (hne : c.text_box ≠ "") :
    (∀ q, pf c.text_box = some q →
      submit sem lsem pf c =
        some ({ c with stack := c.stack ++ [q], previous := c.text_box, text_box := "" }, [])) ∧
    (pf c.text_box = none →
      ∀ ok c' msgs, c.operate sem lsem c.text_box = some (ok, c', msgs) →
        (ok = true →
          submit sem lsem pf c =
            some ({ c' with previous := c.text_box, text_box := "" }, msgs)) ∧
        (ok = false →
          submit sem lsem pf c = some (c', msgs) ∧ c'.text_box = c.text_box ∧
            c'.previous = c.previous)) := by
  constructor
  · intro q hq
    simp only [submit, hq]
  · intro hnone ok c' msgs ho
    have hframe := operate_frame sem lsem c c.text_box (ok, c', msgs) ho
    constructor
    · intro hok
      subst hok
      simp only [submit, hnone, if_neg hne, ho, Option.map, if_pos]
      rw [hframe.1]
    · intro hok
      subst hok
      simp only [submit, hnone, if_neg hne, ho, Option.map]
      exact ⟨rfl, hframe.1, hframe.2.1⟩

/-- Witness for C5: submitting the line "2" on the fresh calculator
pushes 2, records "2" as Previous and clears the line. -/
theorem C5_submit_nonempty_witness :
    submit sem0 lsem0 pf0 { testC with text_box := "2" } =
      some ({ testC with stack := [2], previous := "2", text_box := "" }, []) :=
  (C5_submit_nonempty sem0 lsem0 pf0 { testC with text_box := "2" } (by decide)).1 2 rfl

/-- C6: lookup is case-insensitive.  Dispatching any two names with the
same case-folding behaves identically; a script-registered operation is
stored under its lower-cased name and is found both via the declared name
and via any case variant of it, resolving to the same operation; and
every built-in key is already a lower-case fixed point. -/
theorem C6_case_insensitive (fo : FloatOps) (u0 : US) (l0 : LS)
    (sem : UiuaSem US UFn) (lsem : LuaSem LS LFn) (c : Calculator US UFn LS LFn)
    (v w name : String) (k : Nat) (fn : LFn) (t : Option (String → Option LFn))
    (hvw : strLower v = strLower w) (hvn : strLower v = strLower name) :
    c.operate sem lsem v = c.operate sem lsem w ∧
    ((c.load_lua ⟨[(name, k, fn)], none, t⟩).2).operations (strLower v) =
      some (Operation.Lua name k) ∧
    ((c.load_lua ⟨[(name, k, fn)], none, t⟩).2).operations (strLower name) =
      some (Operation.Lua name k) ∧
    (∀ s op, (Calculator.new fo u0 l0 : Calculator US UFn LS LFn).operations s = some op →
      strLower s = s) := by
  refine ⟨?_, ?_, ?_, fun s op h => (new_shape fo u0 l0 s op h).2⟩
  · unfold Calculator.operate
    rw [hvw]
  · rw [load_lua_eq_ok c _ rfl]
    show mapInsert c.operations (strLower name) (Operation.Lua name k) (strLower v) = _
    simp [mapInsert, hvn]
  · rw [load_lua_eq_ok c _ rfl]
    show mapInsert c.operations (strLower name) (Operation.Lua name k) (strLower name) = _
    simp [mapInsert]

/-- Witness for C6: the case variant "Swap" dispatches identically to the
registered built-in name "swap". -/
theorem C6_case_insensitive_witness :
    testC.operate sem0 lsem0 "Swap" = testC.operate sem0 lsem0 "swap" :=
  (C6_case_insensitive fo0 () () sem0 lsem0 testC "Swap" "swap" "SWAP" 1 () none
    (by decide) (by decide)).1

/-- C7: when Previous holds a numeric literal's text that is not a
registered operator name and the input line is empty, a submit dispatches
Previous as an operator name, fails to resolve and silently no-ops: the
whole calculator — value stack, input line, Previous — is unchanged and
nothing is re-pushed. -/
theorem C7_previous_literal_noop (sem : UiuaSem US UFn) (lsem : LuaSem LS LFn)
    (pf : String → Option ℚ) (c : Calculator US UFn LS LFn) (q : ℚ)
    (hempty : c.text_box = "") (hpf : pf "" = none) (hnum : pf c.previous = some q)
    (hmiss : c.operations (strLower c.previous) = none) :
    submit sem lsem pf c = some (c, []) ∧
    handleEvent sem lsem pf c Event.Submit = some c := by
  have hs : submit sem lsem pf c = some (c, []) := by
    rw [submit, hempty, hpf]
    simp only [if_pos]
    rw [operate_eq_none sem lsem c c.previous hmiss]
    rfl
  refine ⟨hs, ?_⟩
  show (submit sem lsem pf c).map (fun r => r.1) = some c
  rw [hs]
  rfl

/-- Witness for C7: with Previous = "2" (a parseable literal, not an
operator) and an empty line, a submit leaves everything unchanged. -/
theorem C7_previous_literal_noop_witness :
    submit sem0 lsem0 pf0 { testC with previous := "2" } =
      some ({ testC with previous := "2" }, []) ∧
    handleEvent sem0 lsem0 pf0 { testC with previous := "2" } Event.Submit =
      some { testC with previous := "2" } :=
  C7_previous_literal_noop sem0 lsem0 pf0 { testC with previous := "2" } 2 rfl rfl rfl rfl

/-- C8: handling a full-reset event empties the value stack and clears
the input line and Previous, while the operations map (the registry with
every script-registered operation), the error queue and both interpreter
states are left unchanged; pending error-expiry timers live outside the
calculator state and keep producing `PopError` events unaffected. -/
theorem C8_reset (sem : UiuaSem US UFn) (lsem : LuaSem LS LFn)
    (pf : String → Option ℚ) (c : Calculator US UFn LS LFn) :
    handleEvent sem lsem pf c Event.Reset =
      some { c with stack := [], text_box := "", previous := "" } ∧
    (Calculator.reset c).operations = c.operations ∧
    (Calculator.reset c).errors = c.errors ∧
    (Calculator.reset c).lua = c.lua ∧
    (Calculator.reset c).uiua = c.uiua :=
  ⟨rfl, rfl, rfl, rfl, rfl⟩

/-- C9: the error queue is strictly FIFO — a push-error event appends its
message at the tail, a pop-oldest event removes exactly the head, and a
pop-oldest event on an empty queue is a silent no-op leaving all state
unchanged. -/
theorem C9_error_queue_fifo (sem : UiuaSem US UFn) (lsem : LuaSem LS LFn)
    (pf : String → Option ℚ) (c : Calculator US UFn LS LFn) (e : String) :
    handleEvent sem lsem pf c (Event.PushError e) =
      some { c with errors := c.errors ++ [e] } ∧
    (c.errors = [] → handleEvent sem lsem pf c Event.PopError = some c) ∧
    (∀ m rest, c.errors = m :: rest →
      handleEvent sem lsem pf c Event.PopError = some { c with errors := rest }) := by
  refine ⟨rfl, ?_, ?_⟩
  · intro h
    have h2 : List.tail c.errors = c.errors := by rw [h]; rfl
    show some { c with errors := List.tail c.errors } = some c
    rw [h2]
  · intro m rest h
    have h2 : List.tail c.errors = rest := by simp [h]
    exact congrArg (fun l => some { c with errors := l }) h2

/-- Witness for C9: with queue ["E1", "E2"], a push appends "E3" at the
tail, a pop removes "E1" from the head, and a pop on the drained fresh
calculator is a no-op. -/
theorem C9_error_queue_fifo_witness :
    handleEvent sem0 lsem0 pf0 { testC with errors := ["E1", "E2"] } (Event.PushError "E3") =
      some { testC with errors := ["E1", "E2", "E3"] } ∧
    handleEvent sem0 lsem0 pf0 { testC with errors := ["E1", "E2"] } Event.PopError =
      some { testC with errors := ["E2"] } ∧
    handleEvent sem0 lsem0 pf0 testC Event.PopError = some testC :=
  ⟨(C9_error_queue_fifo sem0 lsem0 pf0 { testC with errors := ["E1", "E2"] } "E3").1,
   (C9_error_queue_fifo sem0 lsem0 pf0 { testC with errors := ["E1", "E2"] } "E3").2.2
     "E1" ["E2"] rfl,
   (C9_error_queue_fifo sem0 lsem0 pf0 testC "E0").2.1 rfl⟩

/-- C10 counterexample: the claim fails on the source because
`_ripen_registry` is an ordinary global of the script's own Lua state.
A chunk that registers "foo" and then deletes the global (so execution
succeeds with the global absent) boots into a reachable state whose
registry holds the Lua operation "foo" while no `_ripen_registry` table
exists; dispatching "foo" hits the line-127 `unwrap` on a missing
global and panics (the model's `none` result). -/
theorem C10_counterexample :
    Reachable sem0 lsem0 pf0
      (mainLoad (Calculator.new fo0 () () : Calculator Unit Unit Unit Unit)
        (some ⟨[("foo", 1, ())], none, none⟩) none).1 ∧
    (mainLoad (Calculator.new fo0 () () : Calculator Unit Unit Unit Unit)
      (some ⟨[("foo", 1, ())], none, none⟩) none).1.operations "foo" =
      some (Operation.Lua "foo" 1) ∧
    (mainLoad (Calculator.new fo0 () () : Calculator Unit Unit Unit Unit)
      (some ⟨[("foo", 1, ())], none, none⟩) none).1.lua.registry = none ∧
    (mainLoad (Calculator.new fo0 () () : Calculator Unit Unit Unit Unit)
      (some ⟨[("foo", 1, ())], none, none⟩) none).1.operate sem0 lsem0 "foo" = none :=
  ⟨Reachable.boot fo0 () () (some ⟨[("foo", 1, ())], none, none⟩) none, rfl, rfl, rfl⟩

/-- C10 (amended): the safety of the two `unwrap`s holds exactly for
cooperative user scripts.  If the loaded chunk leaves `_ripen_registry`
as its `register` calls built it and no dispatched Lua call mutates or
deletes the global, then in every reachable state every Lua operation's
stored name is bound to a callable in `_ripen_registry`, and no dispatch
panics; a script that clobbers the global breaks this (counterexample). -/
theorem C10_lua_unwrap_cooperative (sem : UiuaSem US UFn) (lsem : LuaSem LS LFn)
    (pf : String → Option ℚ) (c : Calculator US UFn LS LFn)
    (hcoop : coopLuaSem lsem) (h : ReachableCoop sem lsem pf c) (text : String) :
    luaInv c ∧ c.operate sem lsem text ≠ none :=
  have hinv := coopReachable_luaInv sem lsem pf c hcoop h
  ⟨hinv, luaInv_noPanic sem lsem c hinv text⟩

/-- Witness for C10's amended claim: under the trivial (registry-
preserving) call semantics, the boot state reached with no config files
present dispatches "+" without panicking. -/
theorem C10_lua_unwrap_cooperative_witness :
    (mainLoad (Calculator.new fo0 () () : Calculator Unit Unit Unit Unit) none none).1.operate
      sem0 lsem0 "+" ≠ none :=
  (C10_lua_unwrap_cooperative sem0 lsem0 pf0 _ (fun _ _ _ => rfl)
    (ReachableCoop.boot fo0 () () none none (fun _ hch => Option.noConfusion hch)) "+").2
